import Mathlib

/-!
# Simple-Bank ledger core: shallow embedding and verification

Embedding of the transactional transfer engine of the Simple-Bank
repository.  The record store is modelled as an explicit state (`DB`):
the `accounts` table is a map keyed by its primary key `id`, the
`entries` and `transfers` tables are row lists in insertion order.
Machine `int64` values are modelled as `Int`; `sqlc` limit/offset
parameters as `Nat`.

The SQL queries of `transfer.sql` are embedded from the source.  The
files `store.go`, `account.sql` and `entry.sql` are absent from the
snapshot (only their tests and callers are present), so those
operations are modelled from the specification, as marked in the
doc comments.
-/

namespace SimpleBank

/-- Account row: surrogate id, owner label, currency code, integer
balance (smallest currency unit), creation timestamp. -/
structure Account where
  id : Int
  owner : String
  currency : String
  balance : Int
  createdAt : Int
deriving DecidableEq, Repr

/-- Entry row: a single signed ledger line attached to one account
(negative = debit, positive = credit). -/
structure Entry where
  id : Int
  accountID : Int
  amount : Int
  createdAt : Int
deriving DecidableEq, Repr

/-- Transfer row: a directed money movement between two accounts. -/
structure Transfer where
  id : Int
  fromAccountID : Int
  toAccountID : Int
  amount : Int
  createdAt : Int
deriving DecidableEq, Repr

/-- The record store state.  `accounts` is keyed by primary key;
`entries` and `transfers` are kept in insertion order with serial ids
(`nextEntryID`, `nextTransferID`).  `now` is the clock used for
`created_at` columns.  `log` records every balance update performed,
in execution order, as `(accountID, delta)` pairs; it is the
observation used to state lock-ordering properties. -/
structure DB where
  accounts : Int → Option Account
  entries : List Entry
  transfers : List Transfer
  nextEntryID : Int
  nextTransferID : Int
  now : Int
  log : List (Int × Int)

/-- `GetAccount`: single-row lookup by primary key. -/
def getAccount (db : DB) (i : Int) : Option Account :=
  db.accounts i

/-- `GetEntry`: single-row lookup by primary key. -/
def getEntry (db : DB) (i : Int) : Option Entry :=
  db.entries.find? (fun e => e.id == i)

/-- `GetTransfer` (`transfer.sql`): single-row lookup by primary key. -/
def getTransfer (db : DB) (i : Int) : Option Transfer :=
  db.transfers.find? (fun t => t.id == i)

/-- Modelled from the spec: `CreateTransfer` of the record store
(`transfer.sql` INSERT ... RETURNING *); the spec assumes the backend
enforces referential integrity, so the insert fails when either
referenced account does not exist. -/
def createTransfer (db : DB) (fromID toID amount : Int) :
    Except String (DB × Transfer) :=
  match db.accounts fromID, db.accounts toID with
  | some _, some _ =>
    let t : Transfer :=
      ⟨db.nextTransferID, fromID, toID, amount, db.now⟩
    Except.ok ({ db with transfers := db.transfers ++ [t],
                         nextTransferID := db.nextTransferID + 1 }, t)
  | _, _ => Except.error "foreign key violation on transfers"

/-- Modelled from the spec: `CreateEntry` of the record store
(`entry.sql` is absent from the snapshot); referential integrity as
for `createTransfer`. -/
def createEntry (db : DB) (accountID amount : Int) :
    Except String (DB × Entry) :=
  match db.accounts accountID with
  | some _ =>
    let e : Entry := ⟨db.nextEntryID, accountID, amount, db.now⟩
    Except.ok ({ db with entries := db.entries ++ [e],
                         nextEntryID := db.nextEntryID + 1 }, e)
  | none => Except.error "foreign key violation on entries"

/-- Modelled from the spec: `AddAccountBalance(accountID, delta) ->
Account` (`account.sql` is absent from the snapshot): atomically add a
signed delta to the stored balance and return the updated row; fails
with a "no rows" condition when the id does not exist.  The update is
also appended to the observation `log`. -/
def addAccountBalance (db : DB) (i delta : Int) :
    Except String (DB × Account) :=
  match db.accounts i with
  | none => Except.error "sql: no rows in result set"
  | some acc =>
    let acc' := { acc with balance := acc.balance + delta }
    Except.ok ({ db with
                  accounts := fun j => if j = i then some acc' else db.accounts j,
                  log := db.log ++ [(i, delta)] }, acc')

/-- Modelled from the spec: the amount-correction update on entries
(`UpdateEntry(id, newAmount)`; `entry.sql` is absent from the
snapshot): set the `amount` column of the row with the given id and
return the updated row. -/
def updateEntry (db : DB) (i amount : Int) : Option (DB × Entry) :=
  match db.entries.find? (fun e => e.id == i) with
  | none => none
  | some e =>
    let e' := { e with amount := amount }
    some ({ db with
             entries := db.entries.map (fun x => if x.id == i then e' else x) },
          e')

/-- `ListTransfer` (`transfer.sql`): `ORDER BY id LIMIT $1 OFFSET $2`. -/
def listTransfer (db : DB) (limit offset : Nat) : List Transfer :=
  (((db.transfers.insertionSort (fun t u => t.id ≤ u.id)).drop offset).take limit)

/-- Modelled from the spec: `ListEntry` (`entry.sql` is absent from
the snapshot), listing entries in id order with limit and offset. -/
def listEntry (db : DB) (limit offset : Nat) : List Entry :=
  (((db.entries.insertionSort (fun e f => e.id ≤ f.id)).drop offset).take limit)

/-- Sort rank of a transfer row under
`ORDER BY from_account_id = $1, to_account_id = $1`: booleans sort
ascending (`false < true`), the second key breaks ties of the first. -/
def fromAccountRank (a : Int) (t : Transfer) : Nat :=
  2 * (if t.fromAccountID = a then 1 else 0) + (if t.toAccountID = a then 1 else 0)

/-- `ListTransferFromAccount` (`transfer.sql`): no WHERE clause, only
`ORDER BY from_account_id = $1, to_account_id = $1 LIMIT $2 OFFSET $3`. -/
def listTransferFromAccount (db : DB) (a : Int) (limit offset : Nat) :
    List Transfer :=
  (((db.transfers.insertionSort
      (fun t u => fromAccountRank a t ≤ fromAccountRank a u)).drop offset).take limit)

/-- Error type of the Unit-of-Work Runner: either the inner error
alone (rollback succeeded), or the inner error combined with the
rollback failure. -/
inductive TxError where
  | single : String → TxError
  | combined : String → String → TxError
deriving DecidableEq, Repr

/-- Modelled from the spec: the Unit-of-Work Runner `execTx` of
`store.go` (absent from the snapshot).  It runs the supplied function
on a transaction-scoped view; on success the new state is committed,
on failure the state is rolled back to the original and the error is
surfaced — combined with the rollback error when the rollback itself
fails (`rollbackErr` is the outcome of the rollback attempt). -/
def execTx {α : Type} (db : DB) (rollbackErr : Option String)
    (fn : DB → Except String (DB × α)) : DB × Except TxError α :=
  match fn db with
  | Except.ok (db', a) => (db', Except.ok a)
  | Except.error e =>
    match rollbackErr with
    | none => (db, Except.error (TxError.single e))
    | some rb => (db, Except.error (TxError.combined e rb))

/-- Parameters of the transfer operation. -/
structure TransferTxParams where
  fromAccountID : Int
  toAccountID : Int
  amount : Int
deriving DecidableEq, Repr

/-- The ephemeral aggregate returned by a successful transfer. -/
structure TransferTxResult where
  transfer : Transfer
  fromEntry : Entry
  toEntry : Entry
  fromAccount : Account
  toAccount : Account
deriving DecidableEq, Repr

/-- Modelled from the spec: `addMoney` of `store.go` (absent from the
snapshot): update the first account's balance, then the second's,
returning both updated rows in argument order. -/
def addMoney (db : DB) (id1 a1 id2 a2 : Int) :
    Except String (DB × Account × Account) :=
  match addAccountBalance db id1 a1 with
  | Except.error e => Except.error e
  | Except.ok (db1, acc1) =>
    match addAccountBalance db1 id2 a2 with
    | Except.error e => Except.error e
    | Except.ok (db2, acc2) => Except.ok (db2, acc1, acc2)

/-- Modelled from the spec: the body of `TransferTx` of `store.go`
(absent from the snapshot): create the Transfer record, the debit
entry (−amount) on the source, the credit entry (+amount) on the
destination, then update both balances, touching the account with the
smaller id first. -/
def transferTx (db : DB) (p : TransferTxParams) :
    Except String (DB × TransferTxResult) :=
  match createTransfer db p.fromAccountID p.toAccountID p.amount with
  | Except.error e => Except.error e
  | Except.ok (db1, transfer) =>
    match createEntry db1 p.fromAccountID (-p.amount) with
    | Except.error e => Except.error e
    | Except.ok (db2, fromEntry) =>
      match createEntry db2 p.toAccountID p.amount with
      | Except.error e => Except.error e
      | Except.ok (db3, toEntry) =>
        if p.fromAccountID < p.toAccountID then
          match addMoney db3 p.fromAccountID (-p.amount) p.toAccountID p.amount with
          | Except.error e => Except.error e
          | Except.ok (db4, fromAccount, toAccount) =>
            Except.ok (db4, ⟨transfer, fromEntry, toEntry, fromAccount, toAccount⟩)
        else
          match addMoney db3 p.toAccountID p.amount p.fromAccountID (-p.amount) with
          | Except.error e => Except.error e
          | Except.ok (db4, toAccount, fromAccount) =>
            Except.ok (db4, ⟨transfer, fromEntry, toEntry, fromAccount, toAccount⟩)

/-- Modelled from the spec: the public `TransferTx` operation — the
transfer body executed inside one call to the Unit-of-Work Runner. -/
def transferTxFull (db : DB) (rollbackErr : Option String)
    (p : TransferTxParams) : DB × Except TxError TransferTxResult :=
  execTx db rollbackErr (fun d => transferTx d p)

/-- Run a list of transfer operations in sequence against the store,
threading the state and collecting each operation's outcome.  This is
the serialization model of concurrent execution: the backend's row
locks serialize conflicting transactions, so a concurrent run is
observationally some sequential interleaving of the atomic units. -/
def runTransfers (db : DB) :
    List TransferTxParams → DB × List (Except TxError TransferTxResult)
  | [] => (db, [])
  | p :: ps =>
    let (db1, r) := transferTxFull db none p
    let (db2, rs) := runTransfers db1 ps
    (db2, r :: rs)

/-- Full characterization of one successful transfer between two
existing, distinct accounts: the exact returned result, the new rows,
the serial-id advance, and the balance-update order recorded in the
log. -/
theorem transferTx_step (db : DB) (rbf : Option String) (f t a : Int)
    (af bt : Account) (hft : f ≠ t)
    (hf : db.accounts f = some af) (ht : db.accounts t = some bt) :
    ∃ db' : DB,
      transferTxFull db rbf ⟨f, t, a⟩ =
        (db', Except.ok
          { transfer := ⟨db.nextTransferID, f, t, a, db.now⟩
            fromEntry := ⟨db.nextEntryID, f, -a, db.now⟩
            toEntry := ⟨db.nextEntryID + 1, t, a, db.now⟩
            fromAccount := { af with balance := af.balance - a }
            toAccount := { bt with balance := bt.balance + a } })
      ∧ db'.accounts f = some { af with balance := af.balance - a }
      ∧ db'.accounts t = some { bt with balance := bt.balance + a }
      ∧ (∀ z, z ≠ f → z ≠ t → db'.accounts z = db.accounts z)
      ∧ db'.transfers = db.transfers ++ [⟨db.nextTransferID, f, t, a, db.now⟩]
      ∧ db'.entries = db.entries ++
          [⟨db.nextEntryID, f, -a, db.now⟩, ⟨db.nextEntryID + 1, t, a, db.now⟩]
      ∧ db'.nextTransferID = db.nextTransferID + 1
      ∧ db'.nextEntryID = db.nextEntryID + 2
      ∧ db'.now = db.now
      ∧ db'.log = db.log ++
          (if f < t then [(f, -a), (t, a)] else [(t, a), (f, -a)]) := by
  have htf : t ≠ f := Ne.symm hft
  by_cases h : f < t
  · simp only [transferTxFull, execTx, transferTx, createTransfer, createEntry,
      addMoney, addAccountBalance, hf, ht, h, hft, htf, ne_eq, if_pos, if_true,
      if_false, ite_false, sub_eq_add_neg]
    refine ⟨_, rfl, ?_, ?_, ?_, ?_, ?_, ?_, ?_, ?_, ?_⟩
    · simp [htf, hft]
    · simp
    · intro z hzf hzt
      simp [hzf, hzt]
    · simp
    · simp
    · simp
    · simp
      omega
    · simp
    · simp [h]
  · simp only [transferTxFull, execTx, transferTx, createTransfer, createEntry,
      addMoney, addAccountBalance, hf, ht, h, hft, htf, ne_eq, if_neg, if_false,
      ite_false, sub_eq_add_neg]
    refine ⟨_, rfl, ?_, ?_, ?_, ?_, ?_, ?_, ?_, ?_, ?_⟩
    · simp [hft]
    · simp [htf, hft]
    · intro z hzf hzt
      simp [hzf, hzt]
    · simp
    · simp
    · simp
    · simp
      omega
    · simp
    · simp [h]

/-- The Unit-of-Work Runner never exposes a partial state: whenever it
reports an error, the state it hands back is the original one, whatever
writes the supplied function performed before failing. -/
theorem execTx_rollback {α : Type} (db : DB) (rbf : Option String)
    (fn : DB → Except String (DB × α)) (db' : DB) (e : TxError)
    (h : execTx db rbf fn = (db', Except.error e)) : db' = db := by
  unfold execTx at h
  cases hfn : fn db with
  | ok v =>
    obtain ⟨d, a⟩ := v
    rw [hfn] at h
    simp at h
  | error s =>
    rw [hfn] at h
    cases rbf <;> simp only [Prod.mk.injEq] at h <;> exact h.1.symm

/-- Concrete account 1 for witnesses. -/
def accA : Account := ⟨1, "alice", "USD", 100, 0⟩

/-- Concrete account 2 for witnesses. -/
def accB : Account := ⟨2, "bob", "USD", 50, 0⟩

/-- Concrete store with the two accounts, for witnesses. -/
def dbPair : DB :=
  { accounts := fun i => if i = 1 then some accA else if i = 2 then some accB else none
    entries := []
    transfers := []
    nextEntryID := 1
    nextTransferID := 1
    now := 0
    log := [] }

/-- C1: a successful transfer of amount `a` from X to Y leaves X with
its balance minus `a`, Y with its balance plus `a`, and the sum of the
two balances unchanged. -/
theorem transferTx_conservation (db : DB) (x y a : Int) (ax ay : Account)
    (hxy : x ≠ y) (hx : db.accounts x = some ax) (hy : db.accounts y = some ay) :
    ∃ (db' : DB) (res : TransferTxResult),
      transferTxFull db none ⟨x, y, a⟩ = (db', Except.ok res)
      ∧ ∃ ax' ay', db'.accounts x = some ax' ∧ db'.accounts y = some ay'
        ∧ ax'.balance = ax.balance - a
        ∧ ay'.balance = ay.balance + a
        ∧ ax'.balance + ay'.balance = ax.balance + ay.balance := by
  obtain ⟨db', hrun, hfx, hty, -⟩ :=
    transferTx_step db none x y a ax ay hxy hx hy
  exact ⟨db', _, hrun, _, _, hfx, hty, rfl, rfl, by ring⟩

/-- Witness for C1 at a concrete store. -/
theorem transferTx_conservation_witness :
    ((1 : Int) ≠ 2 ∧ dbPair.accounts 1 = some accA ∧ dbPair.accounts 2 = some accB)
    ∧ ∃ (db' : DB) (res : TransferTxResult),
        transferTxFull dbPair none ⟨1, 2, 10⟩ = (db', Except.ok res)
        ∧ ∃ ax' ay', db'.accounts 1 = some ax' ∧ db'.accounts 2 = some ay'
          ∧ ax'.balance = accA.balance - 10
          ∧ ay'.balance = accB.balance + 10
          ∧ ax'.balance + ay'.balance = accA.balance + accB.balance :=
  ⟨⟨by decide, rfl, rfl⟩,
   transferTx_conservation dbPair 1 2 10 accA accB (by decide) rfl rfl⟩

/-- C2: whenever the transfer operation reports an error, no transfer
row, no entry row and no account-balance change from that attempt is
visible afterwards — the ledger state is exactly the original one. -/
theorem transferTx_atomicity (db : DB) (rbf : Option String)
    (p : TransferTxParams) (db' : DB) (e : TxError)
    (h : transferTxFull db rbf p = (db', Except.error e)) :
    db'.transfers = db.transfers ∧ db'.entries = db.entries
      ∧ ∀ i, db'.accounts i = db.accounts i := by
  have hd : db' = db := execTx_rollback db rbf (fun d => transferTx d p) db' e h
  rw [hd]
  exact ⟨rfl, rfl, fun _ => rfl⟩

/-- Witness for C2: transferring out of a nonexistent account fails
and leaves the concrete store untouched. -/
theorem transferTx_atomicity_witness :
    transferTxFull dbPair none ⟨7, 2, 10⟩ =
      (dbPair, Except.error (TxError.single "foreign key violation on transfers"))
    ∧ ((transferTxFull dbPair none ⟨7, 2, 10⟩).1.transfers = dbPair.transfers
      ∧ (transferTxFull dbPair none ⟨7, 2, 10⟩).1.entries = dbPair.entries
      ∧ ∀ i, (transferTxFull dbPair none ⟨7, 2, 10⟩).1.accounts i = dbPair.accounts i) :=
  ⟨rfl, transferTx_atomicity dbPair none ⟨7, 2, 10⟩ _ _ rfl⟩

/-- C4: in every transfer the two balance updates happen in the fixed
order given by account identity — the smaller id is updated first,
decremented when it is the source and incremented when it is the
destination, whatever the direction of the transfer. -/
theorem transferTx_lock_order (db : DB) (rbf : Option String)
    (f t a : Int) (af bt : Account) (hft : f ≠ t)
    (hf : db.accounts f = some af) (ht : db.accounts t = some bt) :
    ∃ (db' : DB) (res : TransferTxResult),
      transferTxFull db rbf ⟨f, t, a⟩ = (db', Except.ok res)
      ∧ db'.log = db.log ++
          (if f < t then [(f, -a), (t, a)] else [(t, a), (f, -a)])
      ∧ (db'.log.drop db.log.length).map Prod.fst = [min f t, max f t]
      ∧ (f, -a) ∈ db'.log.drop db.log.length
      ∧ (t, a) ∈ db'.log.drop db.log.length := by
  obtain ⟨db', hrun, -, -, -, -, -, -, -, -, hlog⟩ :=
    transferTx_step db rbf f t a af bt hft hf ht
  refine ⟨db', _, hrun, hlog, ?_, ?_, ?_⟩ <;>
    rw [hlog, List.drop_left] <;> by_cases h : f < t
  · simp [h, min_eq_left (le_of_lt h), max_eq_right (le_of_lt h)]
  · have hle : t ≤ f := not_lt.mp h
    simp [h, min_eq_right hle, max_eq_left hle]
  · simp [h]
  · simp [h]
  · simp [h]
  · simp [h]

/-- Witness for C4, on a transfer whose destination has the smaller
id: the destination is still updated first. -/
theorem transferTx_lock_order_witness :
    ((2 : Int) ≠ 1 ∧ dbPair.accounts 2 = some accB ∧ dbPair.accounts 1 = some accA)
    ∧ ∃ (db' : DB) (res : TransferTxResult),
        transferTxFull dbPair none ⟨2, 1, 10⟩ = (db', Except.ok res)
        ∧ db'.log = dbPair.log ++
            (if (2 : Int) < 1 then [(2, -10), (1, 10)] else [(1, 10), (2, -10)])
        ∧ (db'.log.drop dbPair.log.length).map Prod.fst = [min 2 1, max 2 1]
        ∧ ((2 : Int), (-10 : Int)) ∈ db'.log.drop dbPair.log.length
        ∧ ((1 : Int), (10 : Int)) ∈ db'.log.drop dbPair.log.length :=
  ⟨⟨by decide, rfl, rfl⟩,
   transferTx_lock_order dbPair none 2 1 10 accB accA (by decide) rfl rfl⟩

/-- C6: a successful transfer creates, inside one unit of work,
exactly one Transfer row `(x, y, a)`, one debit entry of `-a` on the
source, one credit entry of `+a` on the destination, and returns them
together with the two post-update accounts. -/
theorem transferTx_creates_records (db : DB) (x y a : Int) (ax ay : Account)
    (hxy : x ≠ y) (hx : db.accounts x = some ax) (hy : db.accounts y = some ay) :
    ∃ (db' : DB) (res : TransferTxResult),
      transferTxFull db none ⟨x, y, a⟩ = (db', Except.ok res)
      ∧ db'.transfers = db.transfers ++ [res.transfer]
      ∧ res.transfer.fromAccountID = x ∧ res.transfer.toAccountID = y
      ∧ res.transfer.amount = a
      ∧ db'.entries = db.entries ++ [res.fromEntry, res.toEntry]
      ∧ res.fromEntry.accountID = x ∧ res.fromEntry.amount = -a
      ∧ res.toEntry.accountID = y ∧ res.toEntry.amount = a
      ∧ db'.accounts x = some res.fromAccount
      ∧ db'.accounts y = some res.toAccount := by
  obtain ⟨db', hrun, hfx, hty, -, htr, hen, -⟩ :=
    transferTx_step db none x y a ax ay hxy hx hy
  exact ⟨db', _, hrun, htr, rfl, rfl, rfl, hen, rfl, rfl, rfl, rfl, hfx, hty⟩

/-- Witness for C6 at a concrete store. -/
theorem transferTx_creates_records_witness :
    ((1 : Int) ≠ 2 ∧ dbPair.accounts 1 = some accA ∧ dbPair.accounts 2 = some accB)
    ∧ ∃ (db' : DB) (res : TransferTxResult),
        transferTxFull dbPair none ⟨1, 2, 25⟩ = (db', Except.ok res)
        ∧ db'.transfers = dbPair.transfers ++ [res.transfer]
        ∧ res.transfer.fromAccountID = 1 ∧ res.transfer.toAccountID = 2
        ∧ res.transfer.amount = 25
        ∧ db'.entries = dbPair.entries ++ [res.fromEntry, res.toEntry]
        ∧ res.fromEntry.accountID = 1 ∧ res.fromEntry.amount = -25
        ∧ res.toEntry.accountID = 2 ∧ res.toEntry.amount = 25
        ∧ db'.accounts 1 = some res.fromAccount
        ∧ db'.accounts 2 = some res.toAccount :=
  ⟨⟨by decide, rfl, rfl⟩,
   transferTx_creates_records dbPair 1 2 25 accA accB (by decide) rfl rfl⟩

/-- C7: when the supplied function fails and the rollback also fails,
the Unit-of-Work Runner returns a single error value that carries both
causes — the original error and the rollback failure. -/
theorem execTx_combined_error {α : Type} (db : DB)
    (fn : DB → Except String (DB × α)) (e rb : String)
    (h : fn db = Except.error e) :
    (execTx db (some rb) fn).2 = Except.error (TxError.combined e rb)
    ∧ (execTx db (some rb) fn).1 = db := by
  unfold execTx
  rw [h]
  exact ⟨rfl, rfl⟩

/-- Witness for C7 with a function that always fails. -/
theorem execTx_combined_error_witness :
    ((fun _ : DB => (Except.error "insert failed" : Except String (DB × Unit))) dbPair
        = Except.error "insert failed")
    ∧ (execTx dbPair (some "connection lost")
        (fun _ : DB => (Except.error "insert failed" : Except String (DB × Unit)))).2
        = Except.error (TxError.combined "insert failed" "connection lost")
    ∧ (execTx dbPair (some "connection lost")
        (fun _ : DB => (Except.error "insert failed" : Except String (DB × Unit)))).1
        = dbPair :=
  ⟨rfl,
   (execTx_combined_error dbPair
     (fun _ => Except.error "insert failed") "insert failed" "connection lost" rfl).1,
   (execTx_combined_error dbPair
     (fun _ => Except.error "insert failed") "insert failed" "connection lost" rfl).2⟩

/-- Setting the balance field to a value equal to the current one is
the identity on the account row. -/
theorem balance_set_self (acc : Account) (b : Int) (h : b = acc.balance) :
    ({ acc with balance := b } : Account) = acc := by
  rw [h]

/-- Serialization lemma for mixed-direction runs: any interleaving of
forward (`x → y`) and backward (`y → x`) transfers of amount `a`
between two existing, distinct accounts succeeds step by step, and the
final balances differ from the initial ones by
`(#forward − #backward) · a` on `x` (negated on `y`). -/
theorem runTransfers_mixed (x y a : Int) (hxy : x ≠ y) :
    ∀ (dirs : List Bool) (db : DB) (ax ay : Account),
      db.accounts x = some ax → db.accounts y = some ay →
      (∀ r ∈ (runTransfers db (dirs.map (fun d =>
          if d then ⟨x, y, a⟩ else ⟨y, x, a⟩))).2, ∃ res, r = Except.ok res)
      ∧ (runTransfers db (dirs.map (fun d =>
          if d then ⟨x, y, a⟩ else ⟨y, x, a⟩))).1.accounts x
          = some { ax with balance := ax.balance -
              ((dirs.count true : Int) - (dirs.count false : Int)) * a }
      ∧ (runTransfers db (dirs.map (fun d =>
          if d then ⟨x, y, a⟩ else ⟨y, x, a⟩))).1.accounts y
          = some { ay with balance := ay.balance +
              ((dirs.count true : Int) - (dirs.count false : Int)) * a } := by
  intro dirs
  induction dirs with
  | nil =>
    intro db ax ay hx hy
    refine ⟨?_, ?_, ?_⟩
    · intro r hr
      simp [runTransfers] at hr
    · simp only [runTransfers, List.map_nil]
      rw [balance_set_self _ _ (by simp)]
      exact hx
    · simp only [runTransfers, List.map_nil]
      rw [balance_set_self _ _ (by simp)]
      exact hy
  | cons d dirs ih =>
    intro db ax ay hx hy
    cases d with
    | true =>
      obtain ⟨db1, hrun, hfx, hty, -⟩ :=
        transferTx_step db none x y a ax ay hxy hx hy
      obtain ⟨hok, hx', hy'⟩ :=
        ih db1 { ax with balance := ax.balance - a }
          { ay with balance := ay.balance + a } hfx hty
      rcases hR : runTransfers db1 (dirs.map (fun d =>
          if d then ⟨x, y, a⟩ else ⟨y, x, a⟩)) with ⟨dbf, rsf⟩
      rw [hR] at hok hx' hy'
      simp only [List.map_cons, if_true, runTransfers, hrun, hR]
      refine ⟨?_, ?_, ?_⟩
      · intro r hr
        rcases List.mem_cons.mp hr with h | h
        · exact ⟨_, h⟩
        · exact hok r h
      · have hcnt : ax.balance -
            (((true :: dirs).count true : Int) - ((true :: dirs).count false : Int)) * a
            = (ax.balance - a) -
              ((dirs.count true : Int) - (dirs.count false : Int)) * a := by
          rw [List.count_cons_self, List.count_cons_of_ne (by decide)]
          push_cast
          ring
        rw [hcnt]
        exact hx'
      · have hcnt : ay.balance +
            (((true :: dirs).count true : Int) - ((true :: dirs).count false : Int)) * a
            = (ay.balance + a) +
              ((dirs.count true : Int) - (dirs.count false : Int)) * a := by
          rw [List.count_cons_self, List.count_cons_of_ne (by decide)]
          push_cast
          ring
        rw [hcnt]
        exact hy'
    | false =>
      obtain ⟨db1, hrun, hfy, htx, -⟩ :=
        transferTx_step db none y x a ay ax (Ne.symm hxy) hy hx
      obtain ⟨hok, hx', hy'⟩ :=
        ih db1 { ax with balance := ax.balance + a }
          { ay with balance := ay.balance - a } htx hfy
      rcases hR : runTransfers db1 (dirs.map (fun d =>
          if d then ⟨x, y, a⟩ else ⟨y, x, a⟩)) with ⟨dbf, rsf⟩
      rw [hR] at hok hx' hy'
      simp only [List.map_cons, Bool.false_eq_true, if_false, runTransfers, hrun, hR]
      refine ⟨?_, ?_, ?_⟩
      · intro r hr
        rcases List.mem_cons.mp hr with h | h
        · exact ⟨_, h⟩
        · exact hok r h
      · have hcnt : ax.balance -
            (((false :: dirs).count true : Int) - ((false :: dirs).count false : Int)) * a
            = (ax.balance + a) -
              ((dirs.count true : Int) - (dirs.count false : Int)) * a := by
          rw [List.count_cons_of_ne (by decide), List.count_cons_self]
          push_cast
          ring
        rw [hcnt]
        exact hx'
      · have hcnt : ay.balance +
            (((false :: dirs).count true : Int) - ((false :: dirs).count false : Int)) * a
            = (ay.balance - a) +
              ((dirs.count true : Int) - (dirs.count false : Int)) * a := by
          rw [List.count_cons_of_ne (by decide), List.count_cons_self]
          push_cast
          ring
        rw [hcnt]
        exact hy'

/-- C3: any interleaving of N forward and N backward transfers of
amount `a` over the same pair of existing accounts completes with
every operation succeeding, and the final balances of both accounts
equal their initial balances. -/
theorem transferTx_deadlock_net_zero (db : DB) (x y a : Int)
    (ax ay : Account) (N : Nat) (dirs : List Bool)
    (hxy : x ≠ y) (hx : db.accounts x = some ax) (hy : db.accounts y = some ay)
    (hfwd : dirs.count true = N) (hbwd : dirs.count false = N) :
    (∀ r ∈ (runTransfers db (dirs.map (fun d =>
        if d then ⟨x, y, a⟩ else ⟨y, x, a⟩))).2, ∃ res, r = Except.ok res)
    ∧ (runTransfers db (dirs.map (fun d =>
        if d then ⟨x, y, a⟩ else ⟨y, x, a⟩))).1.accounts x = some ax
    ∧ (runTransfers db (dirs.map (fun d =>
        if d then ⟨x, y, a⟩ else ⟨y, x, a⟩))).1.accounts y = some ay := by
  obtain ⟨hok, hx', hy'⟩ := runTransfers_mixed x y a hxy dirs db ax ay hx hy
  rw [balance_set_self _ _ (by rw [hfwd, hbwd]; ring)] at hx'
  rw [balance_set_self _ _ (by rw [hfwd, hbwd]; ring)] at hy'
  exact ⟨hok, hx', hy'⟩

/-- Witness for C3 with one transfer in each direction. -/
theorem transferTx_deadlock_net_zero_witness :
    ((1 : Int) ≠ 2 ∧ dbPair.accounts 1 = some accA ∧ dbPair.accounts 2 = some accB
      ∧ [true, false].count true = 1 ∧ [true, false].count false = 1)
    ∧ (∀ r ∈ (runTransfers dbPair ([true, false].map (fun d =>
        if d then ⟨1, 2, 10⟩ else ⟨2, 1, 10⟩))).2, ∃ res, r = Except.ok res)
    ∧ (runTransfers dbPair ([true, false].map (fun d =>
        if d then ⟨1, 2, 10⟩ else ⟨2, 1, 10⟩))).1.accounts 1 = some accA
    ∧ (runTransfers dbPair ([true, false].map (fun d =>
        if d then ⟨1, 2, 10⟩ else ⟨2, 1, 10⟩))).1.accounts 2 = some accB :=
  ⟨⟨by decide, rfl, rfl, by decide, by decide⟩,
   transferTx_deadlock_net_zero dbPair 1 2 10 accA accB 1 [true, false]
     (by decide) rfl rfl (by decide) (by decide)⟩

/-- The transfer rows produced by `N` identical transfers starting at
serial id `tID`. -/
def transfersBlock (tID x y a now : Int) : Nat → List Transfer
  | 0 => []
  | N + 1 => ⟨tID, x, y, a, now⟩ :: transfersBlock (tID + 1) x y a now N

/-- The entry rows produced by `N` identical transfers starting at
serial id `eID`: a debit/credit pair per transfer. -/
def entriesBlock (eID x y a now : Int) : Nat → List Entry
  | 0 => []
  | N + 1 => ⟨eID, x, -a, now⟩ :: ⟨eID + 1, y, a, now⟩ ::
      entriesBlock (eID + 2) x y a now N

/-- The results returned by `N` identical transfers, each observing
the post-update balances of its own step. -/
def resultsBlock (tID eID x y a now : Int) (ax ay : Account) :
    Nat → List (Except TxError TransferTxResult)
  | 0 => []
  | N + 1 =>
    Except.ok ⟨⟨tID, x, y, a, now⟩, ⟨eID, x, -a, now⟩, ⟨eID + 1, y, a, now⟩,
      { ax with balance := ax.balance - a }, { ay with balance := ay.balance + a }⟩ ::
    resultsBlock (tID + 1) (eID + 2) x y a now
      { ax with balance := ax.balance - a } { ay with balance := ay.balance + a } N

/-- The balance deltas on the source account observed by the
successful results of a run, relative to the initial balance `b0`. -/
def observedDeltas (b0 : Int) (rs : List (Except TxError TransferTxResult)) :
    List Int :=
  rs.filterMap (fun r => match r with
    | Except.ok res => some (b0 - res.fromAccount.balance)
    | Except.error _ => none)

/-- Serialization lemma for same-direction runs: `N` transfers of
amount `a` from `x` to `y` produce exactly the rows of the blocks
above and move each balance by `N·a`. -/
theorem runTransfers_same (x y a : Int) (hxy : x ≠ y) :
    ∀ (N : Nat) (db : DB) (ax ay : Account),
      db.accounts x = some ax → db.accounts y = some ay →
      (runTransfers db (List.replicate N ⟨x, y, a⟩)).2
        = resultsBlock db.nextTransferID db.nextEntryID x y a db.now ax ay N
      ∧ (runTransfers db (List.replicate N ⟨x, y, a⟩)).1.transfers
        = db.transfers ++ transfersBlock db.nextTransferID x y a db.now N
      ∧ (runTransfers db (List.replicate N ⟨x, y, a⟩)).1.entries
        = db.entries ++ entriesBlock db.nextEntryID x y a db.now N
      ∧ (runTransfers db (List.replicate N ⟨x, y, a⟩)).1.accounts x
        = some { ax with balance := ax.balance - (N : Int) * a }
      ∧ (runTransfers db (List.replicate N ⟨x, y, a⟩)).1.accounts y
        = some { ay with balance := ay.balance + (N : Int) * a } := by
  intro N
  induction N with
  | zero =>
    intro db ax ay hx hy
    refine ⟨rfl, by simp [runTransfers, transfersBlock], by simp [runTransfers, entriesBlock], ?_, ?_⟩
    · simp only [List.replicate, runTransfers]
      rw [balance_set_self _ _ (by simp)]
      exact hx
    · simp only [List.replicate, runTransfers]
      rw [balance_set_self _ _ (by simp)]
      exact hy
  | succ N ih =>
    intro db ax ay hx hy
    obtain ⟨db1, hrun, hfx, hty, -, htr, hen, htid, heid, hnow, -⟩ :=
      transferTx_step db none x y a ax ay hxy hx hy
    obtain ⟨ihres, ihtr, ihen, ihx, ihy⟩ :=
      ih db1 { ax with balance := ax.balance - a }
        { ay with balance := ay.balance + a } hfx hty
    rcases hR : runTransfers db1 (List.replicate N ⟨x, y, a⟩) with ⟨dbf, rsf⟩
    simp only [hR] at ihres ihtr ihen ihx ihy
    simp only [List.replicate_succ, runTransfers, hrun, hR]
    refine ⟨?_, ?_, ?_, ?_, ?_⟩
    · simp only [resultsBlock]
      rw [ihres, htid, heid, hnow]
    · rw [ihtr, htr, htid, hnow]
      simp [transfersBlock]
    · rw [ihen, hen, heid, hnow]
      simp [entriesBlock]
    · have hval : ax.balance - ((N + 1 : Nat) : Int) * a
          = (ax.balance - a) - (N : Int) * a := by
        push_cast
        ring
      rw [hval]
      exact ihx
    · have hval : ay.balance + ((N + 1 : Nat) : Int) * a
          = (ay.balance + a) + (N : Int) * a := by
        push_cast
        ring
      rw [hval]
      exact ihy

/-- Every row of a transfers block has the transfer's endpoints and
amount, and an id inside the block's serial range. -/
theorem mem_transfersBlock (x y a now : Int) :
    ∀ (N : Nat) (tID : Int) (T : Transfer),
      T ∈ transfersBlock tID x y a now N →
      T.fromAccountID = x ∧ T.toAccountID = y ∧ T.amount = a
      ∧ tID ≤ T.id ∧ T.id < tID + (N : Int) := by
  intro N
  induction N with
  | zero =>
    intro tID T hT
    simp [transfersBlock] at hT
  | succ N ih =>
    intro tID T hT
    rcases List.mem_cons.mp hT with h | h
    · subst h
      refine ⟨rfl, rfl, rfl, le_refl _, ?_⟩
      show tID < tID + ((N + 1 : Nat) : Int)
      omega
    · obtain ⟨h1, h2, h3, h4, h5⟩ := ih (tID + 1) T h
      exact ⟨h1, h2, h3, by omega, by omega⟩

/-- The ids of a transfers block are pairwise distinct. -/
theorem transfersBlock_ids_nodup (x y a now : Int) :
    ∀ (N : Nat) (tID : Int),
      ((transfersBlock tID x y a now N).map (fun T => T.id)).Nodup := by
  intro N
  induction N with
  | zero => intro tID; simp [transfersBlock]
  | succ N ih =>
    intro tID
    rw [transfersBlock, List.map_cons, List.nodup_cons]
    refine ⟨?_, ih (tID + 1)⟩
    intro hmem
    obtain ⟨T, hT, hid⟩ := List.mem_map.mp hmem
    obtain ⟨-, -, -, h4, -⟩ := mem_transfersBlock x y a now N (tID + 1) T hT
    have hid2 : T.id = tID := hid
    omega

/-- Length of a transfers block. -/
theorem transfersBlock_length (x y a now : Int) :
    ∀ (N : Nat) (tID : Int), (transfersBlock tID x y a now N).length = N := by
  intro N
  induction N with
  | zero => intro tID; rfl
  | succ N ih => intro tID; simp [transfersBlock, ih]

/-- Every row of an entries block is either the debit half (account
`x`, amount `-a`) or the credit half (account `y`, amount `+a`), with
an id inside the block's serial range. -/
theorem mem_entriesBlock (x y a now : Int) :
    ∀ (N : Nat) (eID : Int) (e : Entry),
      e ∈ entriesBlock eID x y a now N →
      eID ≤ e.id ∧ e.id < eID + 2 * (N : Int)
      ∧ ((e.accountID = x ∧ e.amount = -a) ∨ (e.accountID = y ∧ e.amount = a)) := by
  intro N
  induction N with
  | zero =>
    intro eID e he
    simp [entriesBlock] at he
  | succ N ih =>
    intro eID e he
    rcases List.mem_cons.mp he with h | h
    · subst h
      refine ⟨le_refl _, ?_, Or.inl ⟨rfl, rfl⟩⟩
      show eID < eID + 2 * ((N + 1 : Nat) : Int)
      omega
    · rcases List.mem_cons.mp h with h' | h'
      · subst h'
        refine ⟨?_, ?_, Or.inr ⟨rfl, rfl⟩⟩
        · show eID ≤ eID + 1
          omega
        · show eID + 1 < eID + 2 * ((N + 1 : Nat) : Int)
          omega
      · obtain ⟨h1, h2, h3⟩ := ih (eID + 2) e h'
        exact ⟨by omega, by omega, h3⟩

/-- The ids of an entries block are pairwise distinct. -/
theorem entriesBlock_ids_nodup (x y a now : Int) :
    ∀ (N : Nat) (eID : Int),
      ((entriesBlock eID x y a now N).map (fun e => e.id)).Nodup := by
  intro N
  induction N with
  | zero => intro eID; simp [entriesBlock]
  | succ N ih =>
    intro eID
    rw [entriesBlock, List.map_cons, List.map_cons, List.nodup_cons,
      List.nodup_cons]
    refine ⟨?_, ?_, ih (eID + 2)⟩
    · intro hmem
      rcases List.mem_cons.mp hmem with h | h
      · simp at h
      · obtain ⟨e, he, hid⟩ := List.mem_map.mp h
        obtain ⟨h1, -, -⟩ := mem_entriesBlock x y a now N (eID + 2) e he
        have hid2 : e.id = eID := hid
        omega
    · intro hmem
      obtain ⟨e, he, hid⟩ := List.mem_map.mp hmem
      obtain ⟨h1, -, -⟩ := mem_entriesBlock x y a now N (eID + 2) e he
      have hid2 : e.id = eID + 1 := hid
      omega

/-- Length of an entries block. -/
theorem entriesBlock_length (x y a now : Int) :
    ∀ (N : Nat) (eID : Int), (entriesBlock eID x y a now N).length = 2 * N := by
  intro N
  induction N with
  | zero => intro eID; rfl
  | succ N ih =>
    intro eID
    simp only [entriesBlock, List.length_cons, ih]
    omega

/-- Exactly `N` rows of an entries block are debits on `x`. -/
theorem entriesBlock_filter_x (x y a now : Int) (hxy : x ≠ y) :
    ∀ (N : Nat) (eID : Int),
      ((entriesBlock eID x y a now N).filter
        (fun e => e.accountID == x)).length = N := by
  intro N
  induction N with
  | zero => intro eID; rfl
  | succ N ih =>
    intro eID
    rw [entriesBlock, List.filter_cons_of_pos (by simp),
      List.filter_cons_of_neg (by simp [Ne.symm hxy]), List.length_cons, ih]

/-- Exactly `N` rows of an entries block are credits on `y`. -/
theorem entriesBlock_filter_y (x y a now : Int) (hxy : x ≠ y) :
    ∀ (N : Nat) (eID : Int),
      ((entriesBlock eID x y a now N).filter
        (fun e => e.accountID == y)).length = N := by
  intro N
  induction N with
  | zero => intro eID; rfl
  | succ N ih =>
    intro eID
    rw [entriesBlock, List.filter_cons_of_neg (by simp [hxy]),
      List.filter_cons_of_pos (by simp), List.length_cons, ih]

/-- The deltas observed by a results block, relative to a reference
balance `b0`, are the successive multiples of the amount. -/
theorem observedDeltas_resultsBlock (x y a now : Int) :
    ∀ (N : Nat) (tID eID : Int) (ax ay : Account) (b0 : Int),
      observedDeltas b0 (resultsBlock tID eID x y a now ax ay N)
        = (List.range N).map (fun i : Nat => (b0 - ax.balance) + ((i : Int) + 1) * a) := by
  intro N
  induction N with
  | zero => intro tID eID ax ay b0; rfl
  | succ N ih =>
    intro tID eID ax ay b0
    rw [resultsBlock, List.range_succ_eq_map, List.map_cons]
    show (b0 - (ax.balance - a)) ::
        observedDeltas b0 (resultsBlock (tID + 1) (eID + 2) x y a now
          { ax with balance := ax.balance - a } { ay with balance := ay.balance + a } N)
      = _
    rw [ih, List.map_map]
    congr 1
    · push_cast
      ring
    · refine List.map_congr_left ?_
      intro i hi
      simp only [Function.comp_apply]
      push_cast
      ring

/-- C5: `N` transfers of amount `a > 0` from X to Y produce exactly
`N` transfer rows with pairwise-distinct ids and the right fields,
`N` debit/credit entry pairs with pairwise-distinct ids, move the two
balances by exactly `N·a`, and the successful results observe
pairwise-distinct balance deltas on X — each a multiple `k·a` with
`1 ≤ k ≤ N`. -/
theorem transferTx_no_double_counting (db : DB) (x y a : Int)
    (ax ay : Account) (N : Nat) (hxy : x ≠ y) (ha : 0 < a)
    (hx : db.accounts x = some ax) (hy : db.accounts y = some ay) :
    ∃ (ts : List Transfer) (es : List Entry),
      (runTransfers db (List.replicate N ⟨x, y, a⟩)).1.transfers = db.transfers ++ ts
      ∧ ts.length = N
      ∧ (ts.map (fun T => T.id)).Nodup
      ∧ (∀ T ∈ ts, T.fromAccountID = x ∧ T.toAccountID = y ∧ T.amount = a)
      ∧ (runTransfers db (List.replicate N ⟨x, y, a⟩)).1.entries = db.entries ++ es
      ∧ es.length = 2 * N
      ∧ (es.map (fun e => e.id)).Nodup
      ∧ (es.filter (fun e => e.accountID == x)).length = N
      ∧ (∀ e ∈ es, e.accountID = x → e.amount = -a)
      ∧ (es.filter (fun e => e.accountID == y)).length = N
      ∧ (∀ e ∈ es, e.accountID = y → e.amount = a)
      ∧ (runTransfers db (List.replicate N ⟨x, y, a⟩)).1.accounts x
          = some { ax with balance := ax.balance - (N : Int) * a }
      ∧ (runTransfers db (List.replicate N ⟨x, y, a⟩)).1.accounts y
          = some { ay with balance := ay.balance + (N : Int) * a }
      ∧ observedDeltas ax.balance (runTransfers db (List.replicate N ⟨x, y, a⟩)).2
          = (List.range N).map (fun i : Nat => ((i : Int) + 1) * a)
      ∧ (observedDeltas ax.balance (runTransfers db (List.replicate N ⟨x, y, a⟩)).2).Nodup
      ∧ (∀ d ∈ observedDeltas ax.balance (runTransfers db (List.replicate N ⟨x, y, a⟩)).2,
          ∃ k : Nat, 1 ≤ k ∧ k ≤ N ∧ d = (k : Int) * a) := by
  obtain ⟨hres, htr, hen, hax, hay⟩ := runTransfers_same x y a hxy N db ax ay hx hy
  have hdel : observedDeltas ax.balance (runTransfers db (List.replicate N ⟨x, y, a⟩)).2
      = (List.range N).map (fun i : Nat => ((i : Int) + 1) * a) := by
    rw [hres, observedDeltas_resultsBlock]
    refine List.map_congr_left ?_
    intro i hi
    ring
  refine ⟨transfersBlock db.nextTransferID x y a db.now N,
    entriesBlock db.nextEntryID x y a db.now N,
    htr, transfersBlock_length x y a db.now N _,
    transfersBlock_ids_nodup x y a db.now N _, ?_,
    hen, entriesBlock_length x y a db.now N _,
    entriesBlock_ids_nodup x y a db.now N _,
    entriesBlock_filter_x x y a db.now hxy N _, ?_,
    entriesBlock_filter_y x y a db.now hxy N _, ?_,
    hax, hay, hdel, ?_, ?_⟩
  · intro T hT
    obtain ⟨h1, h2, h3, -, -⟩ := mem_transfersBlock x y a db.now N _ T hT
    exact ⟨h1, h2, h3⟩
  · intro e he hacc
    obtain ⟨-, -, h3⟩ := mem_entriesBlock x y a db.now N _ e he
    rcases h3 with ⟨-, ham⟩ | ⟨hacc2, -⟩
    · exact ham
    · exact absurd (hacc ▸ hacc2 : x = y).symm (Ne.symm hxy)
  · intro e he hacc
    obtain ⟨-, -, h3⟩ := mem_entriesBlock x y a db.now N _ e he
    rcases h3 with ⟨hacc2, -⟩ | ⟨-, ham⟩
    · exact absurd (hacc ▸ hacc2 : y = x) (Ne.symm hxy)
    · exact ham
  · rw [hdel]
    refine List.Nodup.map ?_ (List.nodup_range N)
    intro i j hij
    have h2 : ((i : Int) + 1) = ((j : Int) + 1) :=
      mul_right_cancel₀ (ne_of_gt ha) hij
    omega
  · intro d hd
    rw [hdel] at hd
    obtain ⟨i, hi, hdval⟩ := List.mem_map.mp hd
    refine ⟨i + 1, by omega, by have := List.mem_range.mp hi; omega, ?_⟩
    rw [← hdval]
    push_cast
    ring

/-- Witness for C5 with two transfers at a concrete store. -/
theorem transferTx_no_double_counting_witness :
    ((1 : Int) ≠ 2 ∧ (0 : Int) < 10
      ∧ dbPair.accounts 1 = some accA ∧ dbPair.accounts 2 = some accB)
    ∧ ∃ (ts : List Transfer) (es : List Entry),
      (runTransfers dbPair (List.replicate 2 ⟨1, 2, 10⟩)).1.transfers
          = dbPair.transfers ++ ts
      ∧ ts.length = 2
      ∧ (ts.map (fun T => T.id)).Nodup
      ∧ (∀ T ∈ ts, T.fromAccountID = 1 ∧ T.toAccountID = 2 ∧ T.amount = 10)
      ∧ (runTransfers dbPair (List.replicate 2 ⟨1, 2, 10⟩)).1.entries
          = dbPair.entries ++ es
      ∧ es.length = 2 * 2
      ∧ (es.map (fun e => e.id)).Nodup
      ∧ (es.filter (fun e => e.accountID == 1)).length = 2
      ∧ (∀ e ∈ es, e.accountID = 1 → e.amount = -10)
      ∧ (es.filter (fun e => e.accountID == 2)).length = 2
      ∧ (∀ e ∈ es, e.accountID = 2 → e.amount = 10)
      ∧ (runTransfers dbPair (List.replicate 2 ⟨1, 2, 10⟩)).1.accounts 1
          = some { accA with balance := accA.balance - (2 : Nat) * 10 }
      ∧ (runTransfers dbPair (List.replicate 2 ⟨1, 2, 10⟩)).1.accounts 2
          = some { accB with balance := accB.balance + (2 : Nat) * 10 }
      ∧ observedDeltas accA.balance (runTransfers dbPair (List.replicate 2 ⟨1, 2, 10⟩)).2
          = (List.range 2).map (fun i : Nat => ((i : Int) + 1) * 10)
      ∧ (observedDeltas accA.balance
          (runTransfers dbPair (List.replicate 2 ⟨1, 2, 10⟩)).2).Nodup
      ∧ (∀ d ∈ observedDeltas accA.balance
            (runTransfers dbPair (List.replicate 2 ⟨1, 2, 10⟩)).2,
          ∃ k : Nat, 1 ≤ k ∧ k ≤ 2 ∧ d = (k : Int) * 10) :=
  ⟨⟨by decide, by decide, rfl, rfl⟩,
   transferTx_no_double_counting dbPair 1 2 10 accA accB 2
     (by decide) (by decide) rfl rfl⟩

instance : IsTotal Transfer (fun t u => t.id ≤ u.id) :=
  ⟨fun t u => le_total t.id u.id⟩

instance : IsTrans Transfer (fun t u => t.id ≤ u.id) :=
  ⟨fun _ _ _ h1 h2 => le_trans h1 h2⟩

instance : IsTotal Entry (fun e f => e.id ≤ f.id) :=
  ⟨fun e f => le_total e.id f.id⟩

instance : IsTrans Entry (fun e f => e.id ≤ f.id) :=
  ⟨fun _ _ _ h1 h2 => le_trans h1 h2⟩

/-- C8 (amended): `ListTransfer` and `ListEntry` return exactly
`min(L, remaining)` rows in id order; `ListTransferFromAccount`
returns `min(L, remaining)` rows over the whole, unfiltered transfers
table (its order is by endpoint-match keys, not by id — see the
counterexample). -/
theorem listing_pagination (db : DB) (acct : Int) (L O : Nat) :
    (listTransfer db L O).length = min L (db.transfers.length - O)
    ∧ List.Sorted (fun t u => t.id ≤ u.id) (listTransfer db L O)
    ∧ (listEntry db L O).length = min L (db.entries.length - O)
    ∧ List.Sorted (fun e f => e.id ≤ f.id) (listEntry db L O)
    ∧ (listTransferFromAccount db acct L O).length
        = min L (db.transfers.length - O) := by
  refine ⟨?_, ?_, ?_, ?_, ?_⟩
  · rw [listTransfer, List.length_take, List.length_drop,
      List.length_insertionSort]
  · exact List.Pairwise.sublist
      ((List.take_sublist _ _).trans (List.drop_sublist _ _))
      (List.sorted_insertionSort _ db.transfers)
  · rw [listEntry, List.length_take, List.length_drop,
      List.length_insertionSort]
  · exact List.Pairwise.sublist
      ((List.take_sublist _ _).trans (List.drop_sublist _ _))
      (List.sorted_insertionSort _ db.entries)
  · rw [listTransferFromAccount, List.length_take, List.length_drop,
      List.length_insertionSort]

/-- Transfer row between accounts 1 and 2, for the listing
counterexample store. -/
def trAB : Transfer := ⟨1, 1, 2, 5, 0⟩

/-- Transfer row between accounts 3 and 4 (not involving account 1),
for the listing counterexample store. -/
def trCD : Transfer := ⟨2, 3, 4, 7, 0⟩

/-- Concrete store holding the two transfers above. -/
def dbList : DB :=
  { accounts := fun _ => none
    entries := []
    transfers := [trAB, trCD]
    nextEntryID := 1
    nextTransferID := 3
    now := 0
    log := [] }

/-- Counterexample to C8 as stated: `ListTransferFromAccount` is a
listing operation, yet on this store it returns its rows out of id
order (the row not matching the requested account sorts first). -/
theorem listTransferFromAccount_breaks_id_order :
    listTransferFromAccount dbList 1 5 0 = [trCD, trAB]
    ∧ ¬ List.Sorted (fun t u => t.id ≤ u.id)
        (listTransferFromAccount dbList 1 5 0) := by
  constructor
  · rfl
  · decide

/-- C9: `ListTransferFromAccount` does not filter by the given
account: on this store, listing transfers "from account 1" returns
the transfer between accounts 3 and 4, whose endpoints are both
different from 1, and the returned rows are not in id order. -/
theorem listTransferFromAccount_unfiltered :
    trCD ∈ listTransferFromAccount dbList 1 5 0
    ∧ trCD.fromAccountID ≠ 1 ∧ trCD.toAccountID ≠ 1
    ∧ ¬ List.Sorted (fun t u => t.id ≤ u.id)
        (listTransferFromAccount dbList 1 5 0) := by
  refine ⟨?_, by decide, by decide, by decide⟩
  decide

/-- C10: the amount-correction update changes only the `amount`
field: the returned entry carries the new amount and the id, account
and creation timestamp it had before the update. -/
theorem updateEntry_frame (db : DB) (i m : Int) (e1 : Entry)
    (h : getEntry db i = some e1) :
    ∃ (db' : DB) (e2 : Entry), updateEntry db i m = some (db', e2)
      ∧ e2.amount = m ∧ e2.id = e1.id ∧ e2.accountID = e1.accountID
      ∧ e2.createdAt = e1.createdAt := by
  unfold getEntry at h
  unfold updateEntry
  rw [h]
  exact ⟨_, _, rfl, rfl, rfl, rfl, rfl⟩

/-- Concrete entry for the C10 witness. -/
def entE : Entry := ⟨5, 1, -3, 7⟩

/-- Concrete store holding that entry. -/
def dbWithEntry : DB :=
  { accounts := fun i => if i = 1 then some accA else none
    entries := [entE]
    transfers := []
    nextEntryID := 6
    nextTransferID := 1
    now := 7
    log := [] }

/-- Witness for C10 at a concrete store. -/
theorem updateEntry_frame_witness :
    getEntry dbWithEntry 5 = some entE
    ∧ ∃ (db' : DB) (e2 : Entry), updateEntry dbWithEntry 5 42 = some (db', e2)
      ∧ e2.amount = 42 ∧ e2.id = entE.id ∧ e2.accountID = entE.accountID
      ∧ e2.createdAt = entE.createdAt :=
  ⟨rfl, updateEntry_frame dbWithEntry 5 42 entE rfl⟩

end SimpleBank
